import Mathlib

/-!
Shallow embedding of the custom-ids-ml network intrusion detection pipeline
(src/feature_extractor.py, src/ml_detection.py, src/rules_engine.py) and
verification of the specification's claims about it.

Timestamps are modelled as integers (seconds); `datetime` subtraction
`total_seconds()` becomes integer subtraction.  Python truthiness of
optional strings / numbers is modelled explicitly (`None` and the empty
string / zero are falsy).
-/

namespace IDS

/-- Python truthiness of an optional string: `None` and `""` are falsy. -/
def truthyS : Option String → Bool
  | none => false
  | some s => s ≠ ""

/-- Python truthiness of an optional number: `None` and `0` are falsy. -/
def truthyN : Option Nat → Bool
  | none => false
  | some n => n ≠ 0

/-- A packet-event record as produced by `PacketCapture._extract_basic_features`:
timestamp, optional addresses, optional protocol number, byte length, and the
optional raw-packet view (whose `Raw` layer payload, decoded best-effort to
text, is what the rules engine inspects). -/
structure PacketInfo where
  timestamp : Int
  src_ip : Option String
  dst_ip : Option String
  protocol : Option Nat
  length : Nat
  raw_packet : Option (Option String)
  deriving DecidableEq, Repr

/-- Per-flow aggregate state (`FeatureExtractor.flow_stats` dictionary values).
The `defaultdict` default has all counters zero and empty sequences. -/
structure FlowStat where
  packet_count : Nat
  byte_count : Nat
  start_time : Option Int
  last_time : Option Int
  intervals : List Int
  packet_sizes : List Nat
  deriving DecidableEq, Repr

/-- The `defaultdict` default value for a fresh flow. -/
def emptyFlow : FlowStat :=
  { packet_count := 0, byte_count := 0, start_time := none, last_time := none
    intervals := [], packet_sizes := [] }

/-- Python string comparison `a < b`: strict lexicographic order on the
code-point sequences (the order `sorted` uses on the two address
strings). -/
def strLtb : List Char → List Char → Bool
  | [], [] => false
  | [], _ :: _ => true
  | _ :: _, [] => false
  | a :: as, b :: bs => if a < b then true else if a = b then strLtb as bs else false

/-- Flow-key derivation from `FeatureExtractor._update_flow_stats`: the two
addresses are sorted (Python `sorted` on a two-element list, which swaps
the pair exactly when the second address compares below the first) and
joined with the protocol into one string. -/
def flow_key (src dst : String) (protocol : Nat) : String :=
  let ips : String × String := if strLtb dst.data src.data then (dst, src) else (src, dst)
  ips.1 ++ "_" ++ ips.2 ++ "_" ++ toString protocol

/-- The per-flow update of `FeatureExtractor._update_flow_stats` (lines 56-68):
on the first packet set `start_time`; otherwise append the raw difference
`timestamp - last_time` to `intervals` (the code applies no clamping); then
increment the count, add the length to the byte count, update `last_time`
and append the packet size. -/
def updateFlow (flow : FlowStat) (timestamp : Int) (length : Nat) : FlowStat :=
  let f :=
    match flow.start_time with
    | none => { flow with start_time := some timestamp }
    | some _ =>
        { flow with intervals := flow.intervals ++ [timestamp - flow.last_time.getD 0] }
  { f with
    packet_count := f.packet_count + 1
    byte_count := f.byte_count + length
    last_time := some timestamp
    packet_sizes := f.packet_sizes ++ [length] }

/-- The flow table, a Python dict keyed by flow key, preserving insertion
order, modelled as an association list. -/
def FlowTable := List (String × FlowStat)

/-- Dict lookup. -/
def lookupFlow : List (String × FlowStat) → String → Option FlowStat
  | [], _ => none
  | (k, v) :: rest, key => if k = key then some v else lookupFlow rest key

/-- Dict insert-or-update, keeping insertion order like a Python dict. -/
def setFlow : List (String × FlowStat) → String → FlowStat → List (String × FlowStat)
  | [], key, v => [(key, v)]
  | (k, w) :: rest, key, v =>
      if k = key then (key, v) :: rest else (k, w) :: setFlow rest key v

/-- `FeatureExtractor._update_flow_stats`: only events with truthy source and
destination addresses update the table (others are dropped from flow
tracking); the flow key is bidirectional and `protocol or 0` maps a falsy
protocol to `0`. -/
def updateFlowStats (tbl : List (String × FlowStat)) (p : PacketInfo) :
    List (String × FlowStat) :=
  if truthyS p.src_ip && truthyS p.dst_ip then
    let key := flow_key (p.src_ip.getD "") (p.dst_ip.getD "")
      (if truthyN p.protocol then p.protocol.getD 0 else 0)
    setFlow tbl key (updateFlow ((lookupFlow tbl key).getD emptyFlow) p.timestamp p.length)
  else tbl

/-- Arithmetic mean over the rationals of a list of naturals
(`np.mean` on packet sizes). -/
def meanN (l : List Nat) : ℚ := (l.sum : ℚ) / l.length

/-- Arithmetic mean over the rationals of a list of integers
(`np.mean` on intervals). -/
def meanZ (l : List Int) : ℚ := ((l.sum : Int) : ℚ) / l.length

/-- Population variance of a list of naturals: the square of `np.std`
(denominator `N`).  The standard deviation itself is the (generally
irrational) square root of this value; the embedding carries the variance,
from which the std is recovered uniquely as its nonnegative root. -/
def varN (l : List Nat) : ℚ :=
  (l.map (fun x => ((x : ℚ) - meanN l) ^ 2)).sum / l.length

/-- Population variance of a list of integers: the square of `np.std`. -/
def varZ (l : List Int) : ℚ :=
  (l.map (fun x => ((x : ℚ) - meanZ l) ^ 2)).sum / l.length

/-- `np.min` over a nonempty list of naturals. -/
def minN (l : List Nat) : Nat := l.foldl Nat.min (l.headD 0)

/-- `np.max` over a nonempty list of naturals. -/
def maxN (l : List Nat) : Nat := l.foldl Nat.max (l.headD 0)

/-- The feature dictionary built by `FeatureExtractor._extract_flow_features`.
`std_packet_size_sq` / `std_interval_sq` carry the squares of the code's
`np.std` values (population variance), see `varN`. -/
structure Features where
  flow_key : String
  timestamp : Int
  packet_count : Nat
  byte_count : Nat
  duration : Int
  packets_per_second : ℚ
  bytes_per_second : ℚ
  mean_packet_size : ℚ
  std_packet_size_sq : ℚ
  min_packet_size : Nat
  max_packet_size : Nat
  mean_interval : ℚ
  std_interval_sq : ℚ
  deriving DecidableEq, Repr

/-- `FeatureExtractor._extract_flow_features`: `None` when the flow has
fewer than 2 packets; otherwise the statistical feature record, with rate
features forced to 0 when `duration ≤ 0`. -/
def extractFlowFeatures (key : String) (stats : FlowStat) : Option Features :=
  if stats.packet_count < 2 then none
  else
    let mean_interval : ℚ := if stats.intervals.length > 0 then meanZ stats.intervals else 0
    let std_interval_sq : ℚ := if stats.intervals.length > 0 then varZ stats.intervals else 0
    let duration : Int := stats.last_time.getD 0 - stats.start_time.getD 0
    let pps : ℚ := if duration > 0 then (stats.packet_count : ℚ) / (duration : ℚ) else 0
    let bps : ℚ := if duration > 0 then (stats.byte_count : ℚ) / (duration : ℚ) else 0
    some
      { flow_key := key
        timestamp := stats.last_time.getD 0
        packet_count := stats.packet_count
        byte_count := stats.byte_count
        duration := duration
        packets_per_second := pps
        bytes_per_second := bps
        mean_packet_size := meanN stats.packet_sizes
        std_packet_size_sq := varN stats.packet_sizes
        min_packet_size := minN stats.packet_sizes
        max_packet_size := maxN stats.packet_sizes
        mean_interval := mean_interval
        std_interval_sq := std_interval_sq }

/-- `FeatureExtractor._generate_features` (lines 70-93): walk the flow table
in order; skip flows with no `last_time` and flows with fewer than 5 packets
(both are retained); for a mature flow idle longer than the window, extract
its features (appending any non-`None` result to the batch) and delete the
flow.  Returns the emitted batch together with the surviving table. -/
def generateFeatures (now window : Int) :
    List (String × FlowStat) → List Features × List (String × FlowStat)
  | [] => ([], [])
  | (key, stats) :: rest =>
      let r := generateFeatures now window rest
      if stats.last_time = none then (r.1, (key, stats) :: r.2)
      else if stats.packet_count < 5 then (r.1, (key, stats) :: r.2)
      else if now - stats.last_time.getD 0 > window then
        match extractFlowFeatures key stats with
        | some f => (f :: r.1, r.2)
        | none => (r.1, r.2)
      else (r.1, (key, stats) :: r.2)

/-!  ML detection engine (`src/ml_detection.py`).  The engine state tracked
by the claims is the training corpus and the fitted model; fitting an
isolation forest is modelled as recording the corpus it was fitted on
(`_train_model` fits on `self.training_data`).  The state is polymorphic in
the feature-vector payload, which the corpus-management logic never
inspects. -/

/-- `MLDetectionEngine.max_training_samples`. -/
def max_training_samples : Nat := 10000

/-- The engine state relevant to corpus and model lifecycle: `self.model`
(recorded as the corpus the model was fitted on), `self.learning_mode`, and
`self.training_data`. -/
structure MLState (α : Type) where
  model : Option (List α)
  learning_mode : Bool
  training_data : List α
  deriving DecidableEq, Repr

/-- Engine state after `__init__` with no persisted model on disk. -/
def mlInit (α : Type) (learning_mode : Bool) : MLState α :=
  { model := none, learning_mode := learning_mode, training_data := [] }

/-- One iteration of `MLDetectionEngine._detection_loop` on a dequeued
batch: an empty (falsy) batch is skipped; while the corpus is below
`max_training_samples` the whole batch is appended; if the corpus has then
reached 1000 and there is no model yet (or learning mode is on),
`_train_model` fits and installs a model on the current corpus.  Scoring
(`_detect_anomalies`) does not change this state. -/
def processBatch {α : Type} (s : MLState α) (batch : List α) : MLState α :=
  if batch.isEmpty then s
  else if s.training_data.length < max_training_samples then
    let td := s.training_data ++ batch
    if 1000 ≤ td.length ∧ (s.model.isNone || s.learning_mode) = true then
      { s with training_data := td, model := some td }
    else { s with training_data := td }
  else s

/-- The detection loop over a sequence of dequeued batches. -/
def runBatches {α : Type} (s : MLState α) (batches : List (List α)) : MLState α :=
  batches.foldl processBatch s

/-!  Signature rules engine (`src/rules_engine.py`).  A compiled payload
pattern is modelled as its matcher, a predicate on the best-effort-decoded
payload text (case-insensitivity is internal to the matcher).  The
raw-packet view of a `PacketInfo` is `Option (Option String)`: the outer
level is presence of `raw_packet`, the inner the presence of a `Raw` layer
with its decoded `load`. -/

/-- A loaded rule record: the optional fields of the YAML rule plus the
compiled pattern (present exactly when the raw rule had a `pattern`). -/
structure Rule where
  id : Option String
  description : Option String
  confidence : Option ℚ
  src_ip : Option String
  dst_ip : Option String
  protocol : Option Nat
  compiled_pattern : Option (String → Bool)

/-- The alert dictionary built by `RulesEngine._check_rules`. -/
structure Alert where
  timestamp : Int
  rule_id : String
  alert_type : String
  confidence : ℚ
  description : String
  src_ip : Option String
  dst_ip : Option String
  protocol : Option Nat

/-- The `SIGNATURE` alert emitted for a satisfied rule. -/
def mkAlert (p : PacketInfo) (r : Rule) : Alert :=
  { timestamp := p.timestamp
    rule_id := r.id.getD "unknown"
    alert_type := "SIGNATURE"
    confidence := r.confidence.getD 1
    description := r.description.getD "Signature match"
    src_ip := p.src_ip
    dst_ip := p.dst_ip
    protocol := p.protocol }

/-- The per-rule body of the loop in `RulesEngine._check_rules` (lines
69-111): skip (`none`) on an address or protocol filter mismatch — each
filter only applies when the rule has the field AND the event value is
truthy; when the rule has a compiled pattern and the packet has a `Raw`
layer, the rule fires iff the pattern matches the decoded payload; a rule
with a pattern but no `Raw` layer never fires; a rule without a pattern
fires once the filters pass. -/
def checkRule (p : PacketInfo) (payload : Option String) (r : Rule) : Option Alert :=
  if r.src_ip.isSome && truthyS p.src_ip && r.src_ip ≠ p.src_ip then none
  else if r.dst_ip.isSome && truthyS p.dst_ip && r.dst_ip ≠ p.dst_ip then none
  else if r.protocol.isSome && truthyN p.protocol && r.protocol ≠ p.protocol then none
  else
    match r.compiled_pattern, payload with
    | some pat, some text => if pat text then some (mkAlert p r) else none
    | some _, none => none
    | none, _ => some (mkAlert p r)

/-- `RulesEngine._check_rules`: returns the list of alerts put on the alert
queue for one packet.  A packet with no (falsy) `raw_packet` returns
immediately with no alerts; otherwise every rule is checked in order, each
contributing at most one alert. -/
def check_rules (rules : List Rule) (p : PacketInfo) : List Alert :=
  match p.raw_packet with
  | none => []
  | some payload => rules.filterMap (checkRule p payload)

/-- The address/protocol filters of a rule pass for a packet: none of the
three skip conditions of `_check_rules` holds. -/
def passesFilters (r : Rule) (p : PacketInfo) : Bool :=
  !(r.src_ip.isSome && truthyS p.src_ip && r.src_ip ≠ p.src_ip) &&
  !(r.dst_ip.isSome && truthyS p.dst_ip && r.dst_ip ≠ p.dst_ip) &&
  !(r.protocol.isSome && truthyN p.protocol && r.protocol ≠ p.protocol)

/-!  Rule loading (`RulesEngine.load_rules`).  The YAML parse result is an
`Except`: `error` when the file is unreadable.  Regex compilation
(`re.compile`, an external library call that may raise on a malformed
pattern) is a parameter `compile : String → Option (String → Bool)`. -/

/-- A raw rule record as parsed from the YAML file, before pattern
compilation. -/
structure RawRule where
  id : Option String
  description : Option String
  confidence : Option ℚ
  src_ip : Option String
  dst_ip : Option String
  protocol : Option Nat
  pattern : Option String

/-- Compiling one raw rule: attach the compiled pattern when a `pattern`
field is present; `none` when `re.compile` raises. -/
def compileRule (compile : String → Option (String → Bool)) (r : RawRule) : Option Rule :=
  match r.pattern with
  | none =>
      some { id := r.id, description := r.description, confidence := r.confidence
             src_ip := r.src_ip, dst_ip := r.dst_ip, protocol := r.protocol
             compiled_pattern := none }
  | some pat =>
      (compile pat).map fun c =>
        { id := r.id, description := r.description, confidence := r.confidence
          src_ip := r.src_ip, dst_ip := r.dst_ip, protocol := r.protocol
          compiled_pattern := some c }

/-- The rule-appending loop of `load_rules`: rules are appended one by one
to `self.rules`; when a pattern fails to compile the raised exception
escapes the loop into the outer handler, leaving `self.rules` holding
exactly the rules appended so far — the failing rule and everything after
it are dropped. -/
def loadLoop (compile : String → Option (String → Bool)) :
    List RawRule → List Rule → List Rule
  | [], acc => acc
  | r :: rest, acc =>
      match compileRule compile r with
      | none => acc
      | some cr => loadLoop compile rest (acc ++ [cr])

/-- `RulesEngine.load_rules`: an unreadable file raises before `self.rules`
is reset, so the previous rule set (`prev`, empty at engine start) is kept;
otherwise the set is rebuilt from scratch by `loadLoop`.  No exception
escapes `load_rules` in either case. -/
def load_rules (compile : String → Option (String → Bool)) (prev : List Rule)
    (parsed : Except Unit (List RawRule)) : List Rule :=
  match parsed with
  | .error _ => prev
  | .ok defs => loadLoop compile defs []

/-!  Operation sequences over the flow table, for stating table
invariants. -/

/-- An operation on the flow tracker: ingesting one packet event
(`_update_flow_stats`) or one expiry/drain pass (`_generate_features`). -/
inductive FlowOp where
  | ingest (p : PacketInfo)
  | drain (now window : Int)

/-- Apply one operation to the flow table (a drain keeps the surviving
table). -/
def applyOp (tbl : List (String × FlowStat)) : FlowOp → List (String × FlowStat)
  | .ingest p => updateFlowStats tbl p
  | .drain now window => (generateFeatures now window tbl).2

/-- Run a sequence of operations starting from the empty flow table the
extractor is constructed with. -/
def runOps (ops : List FlowOp) : List (String × FlowStat) :=
  ops.foldl applyOp []

/-- The flow-state consistency invariant: the flow has been seen
(timestamps set, at least one packet), the packet count is the length of
the size sequence, the byte count its sum, and there is one inter-arrival
entry per packet after the first. -/
def FlowInv (st : FlowStat) : Prop :=
  st.start_time.isSome = true ∧ st.last_time.isSome = true ∧
  1 ≤ st.packet_count ∧
  st.packet_count = st.packet_sizes.length ∧
  st.byte_count = st.packet_sizes.sum ∧
  st.intervals.length + 1 = st.packet_count

/-- Every flow state held in a table satisfies the consistency
invariant. -/
def TableInv (tbl : List (String × FlowStat)) : Prop :=
  ∀ k st, (k, st) ∈ tbl → FlowInv st

/-!  Concrete inputs used to evaluate the claims on the code. -/

/-- A packet of the end-to-end scenario: 10.0.0.1 → 10.0.0.2, protocol 6. -/
def c4pkt (t : Int) (len : Nat) : PacketInfo :=
  { timestamp := t, src_ip := some "10.0.0.1", dst_ip := some "10.0.0.2"
    protocol := some 6, length := len, raw_packet := none }

/-- Flow table after the three scenario packets at t = 0, 1, 2 with sizes
100, 150, 120. -/
def c4tbl : List (String × FlowStat) :=
  updateFlowStats (updateFlowStats (updateFlowStats [] (c4pkt 0 100)) (c4pkt 1 150))
    (c4pkt 2 120)

/-- A three-packet flow state (below the maturity threshold). -/
def c3st : FlowStat :=
  { packet_count := 3, byte_count := 370, start_time := some 0, last_time := some 2
    intervals := [1, 1], packet_sizes := [100, 150, 120] }

/-- A rule with a source-address filter and no payload pattern. -/
def c7rule : Rule :=
  { id := some "r-src", description := some "src filter only", confidence := some 1
    src_ip := some "10.0.0.1", dst_ip := none, protocol := none
    compiled_pattern := none }

/-- A packet event with no source address (absent after decode), carrying a
raw-packet view without a `Raw` layer. -/
def c7pkt : PacketInfo :=
  { timestamp := 5, src_ip := none, dst_ip := some "10.0.0.9", protocol := some 6
    length := 40, raw_packet := some none }

/-- A packet event whose source address is present but different from
`c7rule`'s filter. -/
def c7pkt2 : PacketInfo :=
  { timestamp := 6, src_ip := some "10.0.0.9", dst_ip := some "10.0.0.2"
    protocol := some 6, length := 41, raw_packet := some none }

/-- A filter-only rule with no address/protocol filters and no pattern. -/
def c8rule : Rule :=
  { id := some "r-any", description := none, confidence := none
    src_ip := none, dst_ip := none, protocol := none, compiled_pattern := none }

/-- A packet event with no raw-packet view. -/
def c8pkt : PacketInfo :=
  { timestamp := 7, src_ip := some "10.0.0.1", dst_ip := some "10.0.0.2"
    protocol := some 6, length := 60, raw_packet := none }

/-- A pattern compiler that fails exactly on the pattern string `"("`
(an unbalanced parenthesis, on which `re.compile` raises). -/
def c9compile (s : String) : Option (String → Bool) :=
  if s = "(" then none else some (fun _ => false)

/-- A well-formed pattern-free rule, id `g1`. -/
def c9g1 : RawRule :=
  { id := some "g1", description := none, confidence := none
    src_ip := none, dst_ip := none, protocol := none, pattern := none }

/-- A malformed rule whose pattern fails to compile. -/
def c9bad : RawRule :=
  { id := some "b", description := none, confidence := none
    src_ip := none, dst_ip := none, protocol := none, pattern := some "(" }

/-- A well-formed pattern-free rule, id `g2`, listed after the malformed
rule. -/
def c9g2 : RawRule :=
  { id := some "g2", description := none, confidence := none
    src_ip := none, dst_ip := none, protocol := none, pattern := none }

/-!  Theorems settling the claims. -/

/-- The Python string comparison is asymmetric. -/
theorem strLtb_asymm : ∀ l1 l2, strLtb l1 l2 = true → strLtb l2 l1 = false := by
  intro l1
  induction l1 with
  | nil => intro l2 h; cases l2 <;> simp [strLtb] at h ⊢
  | cons a as ih =>
      intro l2 h
      cases l2 with
      | nil => simp [strLtb] at h
      | cons b bs =>
          simp only [strLtb] at h ⊢
          by_cases hab : a < b
          · have h1 : ¬ b < a := lt_asymm hab
            have h2 : ¬ b = a := fun he => absurd (he ▸ hab) (lt_irrefl b)
            simp [h1, h2]
          · by_cases heq : a = b
            · subst heq
              simp only [if_neg hab, if_pos rfl] at h
              simp [lt_irrefl, ih bs h]
            · simp [hab, heq] at h

/-- Two code-point sequences neither of which compares below the other are
equal. -/
theorem strLtb_antisymm : ∀ l1 l2, strLtb l1 l2 = false → strLtb l2 l1 = false →
    l1 = l2 := by
  intro l1
  induction l1 with
  | nil => intro l2 h _; cases l2 <;> simp [strLtb] at h ⊢
  | cons a as ih =>
      intro l2 h h2
      cases l2 with
      | nil => simp [strLtb] at h2
      | cons b bs =>
          simp only [strLtb] at h h2
          by_cases hab : a < b
          · simp [hab] at h
          · by_cases heq : a = b
            · subst heq
              simp only [if_neg hab, if_pos rfl] at h h2
              rw [ih bs h h2]
            · have hba : b < a := by
                rcases lt_trichotomy a b with hc | hc | hc
                · exact absurd hc hab
                · exact absurd hc heq
                · exact hc
              have hbne : ¬ b = a := fun he => heq he.symm
              simp [hba, hbne] at h2

/-- C1: flow-key derivation is order-independent — for every pair of
addresses and every protocol, the key for source A / destination B equals
the key for source B / destination A, so both directions of a conversation
map to the same flow-table entry. -/
theorem flow_key_symmetric (a b : String) (p : Nat) :
    flow_key a b p = flow_key b a p := by
  unfold flow_key
  by_cases h1 : strLtb b.data a.data = true
  · have h2 : strLtb a.data b.data = false := strLtb_asymm _ _ h1
    simp [h1, h2]
  · have h1f : strLtb b.data a.data = false := Bool.eq_false_iff.mpr h1
    by_cases h2 : strLtb a.data b.data = true
    · simp [h1f, h2]
    · have h2f : strLtb a.data b.data = false := Bool.eq_false_iff.mpr h2
      have hdata : b.data = a.data := strLtb_antisymm _ _ h1f h2f
      have hba : b = a := by
        cases a; cases b; exact congrArg String.mk hdata
      subst hba
      rfl

/-- C2 counterexample: a flow last seen at t = 10 receiving a packet at
t = 7 records the interval −3, not max(0, −3) = 0 — the code appends the
raw difference with no clamping, so a negative interval is recorded. -/
theorem interval_negative_cex :
    (updateFlow (updateFlow emptyFlow 10 100) 7 50).intervals = [(-3 : Int)] ∧
    ((-3 : Int) < 0 ∧ (-3 : Int) ≠ max 0 (7 - 10)) := by
  refine ⟨by decide, by decide, by decide⟩

/-- C2 amended: for a flow with an existing state, the value appended to
the interval sequence is exactly `event time − last-seen` — it is zero for
a duplicate timestamp but negative (never clamped) for a non-monotonic
one. -/
theorem interval_is_raw_difference (f : FlowStat) (t : Int) (len : Nat)
    (s lt : Int) (h1 : f.start_time = some s) (h2 : f.last_time = some lt) :
    (updateFlow f t len).intervals = f.intervals ++ [t - lt] := by
  simp [updateFlow, h1, h2]

/-- C2 amended, witness: concrete flow with `start_time = last_time = 10`,
packet at t = 7 appends −3. -/
theorem interval_is_raw_difference_witness :
    (updateFlow (updateFlow emptyFlow 10 100) 7 50).intervals =
      (updateFlow emptyFlow 10 100).intervals ++ [7 - 10] :=
  interval_is_raw_difference (updateFlow emptyFlow 10 100) 7 50 10 10 (by decide) (by decide)

/-- A flow with fewer than 5 packets survives any drain pass unchanged. -/
theorem generateFeatures_retains (now window : Int) :
    ∀ (tbl : List (String × FlowStat)) (k : String) (st : FlowStat),
      (k, st) ∈ tbl → st.packet_count < 5 →
      (k, st) ∈ (generateFeatures now window tbl).2 := by
  intro tbl
  induction tbl with
  | nil => intro k st h _; simp at h
  | cons hd rest ih =>
      intro k st hmem hcnt
      obtain ⟨k0, st0⟩ := hd
      rcases List.mem_cons.mp hmem with heq | htl
      · cases heq
        by_cases h1 : st.last_time = none
        · simp [generateFeatures, h1]
        · simp [generateFeatures, h1, hcnt]
      · by_cases h1 : st0.last_time = none
        · simp only [generateFeatures, if_pos h1]
          exact List.mem_cons_of_mem _ (ih k st htl hcnt)
        · by_cases h2 : st0.packet_count < 5
          · simp only [generateFeatures, if_neg h1, if_pos h2]
            exact List.mem_cons_of_mem _ (ih k st htl hcnt)
          · by_cases h3 : now - st0.last_time.getD 0 > window
            · rcases hef : extractFlowFeatures k0 st0 with _ | f0 <;>
                simp only [generateFeatures, if_neg h1, if_neg h2, if_pos h3, hef] <;>
                exact ih k st htl hcnt
            · simp only [generateFeatures, if_neg h1, if_neg h2, if_neg h3]
              exact List.mem_cons_of_mem _ (ih k st htl hcnt)

/-- Every feature vector emitted by a drain pass comes from a flow in the
table whose packet count is at least 5. -/
theorem generateFeatures_emits_mature (now window : Int) :
    ∀ (tbl : List (String × FlowStat)) (f : Features),
      f ∈ (generateFeatures now window tbl).1 →
      ∃ k st, (k, st) ∈ tbl ∧ 5 ≤ st.packet_count ∧
        extractFlowFeatures k st = some f := by
  intro tbl
  induction tbl with
  | nil => intro f h; simp [generateFeatures] at h
  | cons hd rest ih =>
      intro f hf
      obtain ⟨k0, st0⟩ := hd
      by_cases h1 : st0.last_time = none
      · simp only [generateFeatures, if_pos h1] at hf
        obtain ⟨k, st, hm, hc, he⟩ := ih f hf
        exact ⟨k, st, List.mem_cons_of_mem _ hm, hc, he⟩
      · by_cases h2 : st0.packet_count < 5
        · simp only [generateFeatures, if_neg h1, if_pos h2] at hf
          obtain ⟨k, st, hm, hc, he⟩ := ih f hf
          exact ⟨k, st, List.mem_cons_of_mem _ hm, hc, he⟩
        · by_cases h3 : now - st0.last_time.getD 0 > window
          · rcases hef : extractFlowFeatures k0 st0 with _ | f0
            · simp only [generateFeatures, if_neg h1, if_neg h2, if_pos h3, hef] at hf
              obtain ⟨k, st, hm, hc, he⟩ := ih f hf
              exact ⟨k, st, List.mem_cons_of_mem _ hm, hc, he⟩
            · simp only [generateFeatures, if_neg h1, if_neg h2, if_pos h3, hef,
                List.mem_cons] at hf
              rcases hf with hf | hf
              · exact ⟨k0, st0, List.mem_cons_self _ _, Nat.le_of_not_lt h2, by rw [hef, hf]⟩
              · obtain ⟨k, st, hm, hc, he⟩ := ih f hf
                exact ⟨k, st, List.mem_cons_of_mem _ hm, hc, he⟩
          · simp only [generateFeatures, if_neg h1, if_neg h2, if_neg h3] at hf
            obtain ⟨k, st, hm, hc, he⟩ := ih f hf
            exact ⟨k, st, List.mem_cons_of_mem _ hm, hc, he⟩

/-- C3: the maturity gate — a flow with fewer than 5 packets is never
emitted by the expiry/drain step, regardless of idle time, and its state is
retained in the flow table; every emitted feature vector comes from a flow
with at least 5 packets. -/
theorem maturity_gate (now window : Int) (tbl : List (String × FlowStat)) :
    (∀ k st, (k, st) ∈ tbl → st.packet_count < 5 →
      (k, st) ∈ (generateFeatures now window tbl).2) ∧
    (∀ f ∈ (generateFeatures now window tbl).1,
      ∃ k st, (k, st) ∈ tbl ∧ 5 ≤ st.packet_count ∧
        extractFlowFeatures k st = some f) :=
  ⟨generateFeatures_retains now window tbl,
   generateFeatures_emits_mature now window tbl⟩

/-- C3 witness: a concrete 3-packet flow, idle far beyond the window, is
retained by the drain pass. -/
theorem maturity_gate_witness :
    c3st.packet_count < 5 ∧
    ("k", c3st) ∈ (generateFeatures 1000 60 [("k", c3st)]).2 :=
  ⟨by decide, (maturity_gate 1000 60 [("k", c3st)]).1 "k" c3st (by decide) (by decide)⟩

/-- C4 counterexample: after the three scenario packets (t = 0, 1, 2 with
sizes 100, 150, 120 between 10.0.0.1 and 10.0.0.2 over protocol 6) and a
65-second idle gap, the drain pass at t = 67 with the 60-second window
emits NO feature vector — the claim's "exactly one" fails, because the flow
has only 3 packets and the maturity gate requires 5. -/
theorem endtoend_scenario_cex :
    (generateFeatures 67 60 c4tbl).1 = [] := by decide

/-- C4 amended: the three-packet scenario flow is blocked by the maturity
gate — the drain at t = 67 emits nothing and retains the table unchanged;
the retained state has `packet_count = 3`, `byte_count = 370`,
`start_time = 0`, `last_time = 2` (duration 2), sizes [100, 150, 120] with
mean 370/3 (≈ 123.33) and intervals [1, 1]. -/
theorem endtoend_scenario_amended :
    generateFeatures 67 60 c4tbl = ([], c4tbl) ∧
    lookupFlow c4tbl "10.0.0.1_10.0.0.2_6" = some c3st ∧
    meanN c3st.packet_sizes = 370 / 3 ∧
    c3st.last_time.getD 0 - c3st.start_time.getD 0 = 2 :=
  ⟨by decide, by decide, by norm_num [meanN, c3st], by decide⟩

/-- Corpus evolution of one loop iteration: an empty batch changes
nothing, a batch arriving while the corpus is below capacity is appended
whole, and a batch arriving at or above capacity is ignored. -/
theorem processBatch_td {α : Type} (s : MLState α) (b : List α) :
    (processBatch s b).training_data =
      if b.isEmpty then s.training_data
      else if s.training_data.length < max_training_samples then s.training_data ++ b
      else s.training_data := by
  by_cases h1 : b.isEmpty
  · simp [processBatch, h1]
  · by_cases h2 : s.training_data.length < max_training_samples
    · simp only [processBatch, h1, h2, Bool.false_eq_true, if_false, if_true]
      split <;> rfl
    · simp [processBatch, h1, h2]

/-- The learning-mode flag is never changed by the loop. -/
theorem processBatch_lm {α : Type} (s : MLState α) (b : List α) :
    (processBatch s b).learning_mode = s.learning_mode := by
  by_cases h1 : b.isEmpty
  · simp [processBatch, h1]
  · by_cases h2 : s.training_data.length < max_training_samples
    · simp only [processBatch, h1, h2, Bool.false_eq_true, if_false, if_true]
      split <;> rfl
    · simp [processBatch, h1, h2]

/-- Unfolding one batch from the front of the loop. -/
theorem runBatches_cons {α : Type} (s : MLState α) (b : List α) (rest : List (List α)) :
    runBatches s (b :: rest) = runBatches (processBatch s b) rest := by
  simp [runBatches]

/-- Unfolding the last batch of the loop. -/
theorem runBatches_append_one {α : Type} (s : MLState α) (l : List (List α)) (b : List α) :
    runBatches s (l ++ [b]) = processBatch (runBatches s l) b := by
  simp [runBatches, List.foldl_append]

/-- C5 counterexample: from an empty corpus, a batch of 9,999 vectors
followed by a batch of 2 leaves the corpus at 10,001 vectors — the
capacity check `len < 10000` happens before `extend`, so a multi-vector
batch arriving just below capacity overshoots it, refuting "the corpus
size never exceeds 10,000". -/
theorem training_corpus_bound_cex :
    max_training_samples = 10000 ∧
    (runBatches (mlInit Unit false)
        [List.replicate 9999 (), [(), ()]]).training_data.length = 10001 := by
  refine ⟨rfl, ?_⟩
  have hne : (List.replicate 9999 ()).isEmpty = false := by
    rw [show (9999 : Nat) = 9998 + 1 from rfl, List.replicate_succ]
    rfl
  have h1 : (processBatch (mlInit Unit false) (List.replicate 9999 ())).training_data
      = List.replicate 9999 () := by
    rw [processBatch_td, hne]
    simp only [Bool.false_eq_true, if_false]
    rw [if_pos (show (mlInit Unit false).training_data.length < max_training_samples by
      have hmx : max_training_samples = 10000 := rfl
      have h0 : (mlInit Unit false).training_data.length = 0 := rfl
      omega)]
    rfl
  have h2 : runBatches (mlInit Unit false) [List.replicate 9999 (), [(), ()]]
      = processBatch (processBatch (mlInit Unit false) (List.replicate 9999 ())) [(), ()] := by
    simp only [runBatches, List.foldl_cons, List.foldl_nil]
  rw [h2, processBatch_td, h1]
  have hne2 : ([(), ()] : List Unit).isEmpty = false := rfl
  rw [hne2]
  simp only [Bool.false_eq_true, if_false]
  rw [List.length_replicate]
  rw [if_pos (show 9999 < max_training_samples by
    have hmx : max_training_samples = 10000 := rfl
    omega)]
  rw [List.length_append, List.length_replicate]
  rfl

/-- Once at or above capacity, a loop iteration leaves the engine state
completely unchanged. -/
theorem processBatch_full {α : Type} (s : MLState α) (b : List α)
    (h : max_training_samples ≤ s.training_data.length) : processBatch s b = s := by
  unfold processBatch
  by_cases h1 : b.isEmpty
  · simp [h1]
  · simp [h1, Nat.not_lt.mpr h]

/-- Any corpus-size bound of the form `9999 + B` is preserved by the loop
when every batch has at most `B` vectors. -/
theorem runBatches_len_bound {α : Type} (B : Nat) :
    ∀ (batches : List (List α)) (s : MLState α),
      s.training_data.length ≤ 9999 + B → (∀ b ∈ batches, b.length ≤ B) →
      (runBatches s batches).training_data.length ≤ 9999 + B := by
  intro batches
  induction batches with
  | nil => intro s hs _; simpa [runBatches] using hs
  | cons b rest ih =>
      intro s hs hb
      rw [runBatches_cons]
      refine ih (processBatch s b) ?_ (fun b2 h2 => hb b2 (List.mem_cons_of_mem _ h2))
      rw [processBatch_td]
      by_cases h1 : b.isEmpty
      · simpa [h1] using hs
      · by_cases h2 : s.training_data.length < max_training_samples
        · have hblen : b.length ≤ B := hb b (List.mem_cons_self _ _)
          have hmx : max_training_samples = 10000 := rfl
          simp only [h1, h2, if_false, if_true, Bool.false_eq_true, List.length_append]
          omega
        · simpa [h1, h2] using hs

/-- C5 amended: once the corpus has reached its capacity of 10,000, a
further batch changes nothing (no vectors are added); the size itself is
only guaranteed to stay at or below 10,000 when every batch carries at
most one vector — in general, after any sequence of batches of size at
most `B` the corpus holds at most `9999 + B` vectors, since the
capacity check precedes the whole-batch append. -/
theorem training_corpus_bound_amended :
    (∀ (α : Type) (s : MLState α) (b : List α),
      max_training_samples ≤ s.training_data.length → processBatch s b = s) ∧
    (∀ (α : Type) (B : Nat) (batches : List (List α)),
      (∀ b ∈ batches, b.length ≤ B) →
      (runBatches (mlInit α false) batches).training_data.length ≤ 9999 + B) :=
  ⟨fun _ s b h => processBatch_full s b h,
   fun _ B batches hb => runBatches_len_bound B batches _ (by simp [mlInit]) hb⟩

/-- C5 amended, witness: a full 10,000-vector corpus ignores a new batch,
and one singleton batch from empty respects the `9999 + 1` bound. -/
theorem training_corpus_bound_amended_witness :
    processBatch
        { model := none, learning_mode := false,
          training_data := List.replicate 10000 () } [()]
      = { model := none, learning_mode := false,
          training_data := List.replicate 10000 () } ∧
    (runBatches (mlInit Unit false) [[()]]).training_data.length ≤ 9999 + 1 :=
  ⟨training_corpus_bound_amended.1 Unit _ [()]
      (by rw [List.length_replicate]; norm_num [max_training_samples]),
   training_corpus_bound_amended.2 Unit 1 [[()]]
      (by intro b hb; simp only [List.mem_singleton] at hb; subst hb; rfl)⟩

/-- State of the engine after `n` singleton batches from the untrained,
non-learning initial state: the corpus holds the `n` vectors (up to
capacity, which `n ≤ 10000` keeps us under), and the model appears exactly
when the corpus reaches 1,000, fitted on those first 1,000 vectors. -/
theorem bootstrapRun : ∀ n : Nat, n ≤ max_training_samples →
    (runBatches (mlInit Unit false) (List.replicate n [()])).training_data
        = List.replicate n () ∧
    (runBatches (mlInit Unit false) (List.replicate n [()])).model
        = (if n < 1000 then none else some (List.replicate 1000 ())) ∧
    (runBatches (mlInit Unit false) (List.replicate n [()])).learning_mode = false := by
  intro n
  induction n with
  | zero => intro _; exact ⟨rfl, by simp [runBatches, mlInit], rfl⟩
  | succ n ih =>
      intro hn
      obtain ⟨htd, hm, hlm⟩ := ih (Nat.le_of_succ_le hn)
      rw [List.replicate_succ', runBatches_append_one]
      set s := runBatches (mlInit Unit false) (List.replicate n [()]) with hs
      have hlen : s.training_data.length = n := by rw [htd, List.length_replicate]
      have hnlt : s.training_data.length < max_training_samples := by
        rw [hlen]; exact Nat.lt_of_succ_le hn
      have hb : ([()] : List Unit).isEmpty = false := rfl
      have htd2 : s.training_data ++ [()] = List.replicate (n + 1) () := by
        rw [htd, ← List.replicate_succ']
      by_cases hc : n + 1 < 1000
      · have hcond : ¬ (1000 ≤ (s.training_data ++ [()]).length ∧
            (s.model.isNone || s.learning_mode) = true) := by
          rw [List.length_append, hlen]
          have hone : ([()] : List Unit).length = 1 := rfl
          intro hco
          omega
        simp only [processBatch, hb, Bool.false_eq_true, if_false, if_pos hnlt, if_neg hcond]
        refine ⟨htd2, ?_, hlm⟩
        rw [hm, if_pos (by omega), if_pos hc]
      · by_cases he : n + 1 = 1000
        · have hmnone : s.model = none := by rw [hm, if_pos (by omega)]
          have hcond : 1000 ≤ (s.training_data ++ [()]).length ∧
              (s.model.isNone || s.learning_mode) = true := by
            constructor
            · rw [List.length_append, hlen]
              have hone : ([()] : List Unit).length = 1 := rfl
              omega
            · rw [hmnone]; rfl
          simp only [processBatch, hb, Bool.false_eq_true, if_false, if_pos hnlt, if_pos hcond]
          refine ⟨htd2, ?_, hlm⟩
          rw [htd2, if_neg (by omega), he]
        · have hmsome : s.model = some (List.replicate 1000 ()) := by
            rw [hm, if_neg (by omega)]
          have hcond : ¬ (1000 ≤ (s.training_data ++ [()]).length ∧
              (s.model.isNone || s.learning_mode) = true) := by
            rw [hmsome, hlm]
            intro hco
            exact absurd hco.2 (by decide)
          simp only [processBatch, hb, Bool.false_eq_true, if_false, if_pos hnlt, if_neg hcond]
          refine ⟨htd2, ?_, hlm⟩
          rw [hmsome, if_neg (by omega)]

/-- C6: anomaly bootstrap — starting untrained and not in learning mode,
any number of single-vector batches up to 999 leaves the engine with no
model, and the batch bringing the corpus to 1,000 triggers training,
installing a model fitted on those 1,000 vectors. -/
theorem anomaly_bootstrap :
    (∀ n : Nat, n ≤ 999 →
      (runBatches (mlInit Unit false) (List.replicate n [()])).model = none) ∧
    (runBatches (mlInit Unit false) (List.replicate 1000 [()])).model
      = some (List.replicate 1000 ()) := by
  constructor
  · intro n hn
    have h := (bootstrapRun n
      (by have hmx : max_training_samples = 10000 := rfl; omega)).2.1
    rw [h, if_pos (by omega)]
  · have h := (bootstrapRun 1000
      (by have hmx : max_training_samples = 10000 := rfl; omega)).2.1
    rw [h, if_neg (by omega)]

/-- C6 witness: 999 singleton batches leave the engine untrained. -/
theorem anomaly_bootstrap_witness :
    (999 ≤ 999) ∧
    (runBatches (mlInit Unit false) (List.replicate 999 [()])).model = none :=
  ⟨le_refl 999, anomaly_bootstrap.1 999 (le_refl 999)⟩

/-- A rule without a payload pattern whose address/protocol filters pass
fires, contributing exactly one alert, for any payload situation. -/
theorem checkRule_filterOnly (r : Rule) (p : PacketInfo) (payload : Option String)
    (hp : r.compiled_pattern = none) (hf : passesFilters r p = true) :
    checkRule p payload r = some (mkAlert p r) := by
  unfold passesFilters at hf
  simp only [Bool.and_eq_true, Bool.not_eq_true'] at hf
  obtain ⟨⟨h1, h2⟩, h3⟩ := hf
  unfold checkRule
  rw [hp]
  simp only [h1, h2, h3, Bool.false_eq_true, if_false]

/-- C7 counterexample: a rule filtering on source 10.0.0.1 with no payload
pattern fires on a packet whose source address is ABSENT — the code only
skips the rule when the event's address is present and different, so an
event with a missing address is not skipped, refuting "including events in
which that address is absent". -/
theorem address_filter_cex :
    c7rule.src_ip = some "10.0.0.1" ∧ c7pkt.src_ip = none ∧
    (check_rules [c7rule] c7pkt).length = 1 :=
  ⟨rfl, rfl, rfl⟩

/-- C7 amended: a rule's source (or destination) address filter skips the
rule only when the event's address is PRESENT (truthy) and different; an
absent address bypasses the filter.  A filter-only rule whose filters pass
fires regardless of payload, given the event carries a raw-packet view. -/
theorem address_filter_amended :
    (∀ (r : Rule) (p : PacketInfo) (payload : Option String) (a b : String),
      r.src_ip = some a → p.src_ip = some b → b ≠ "" → a ≠ b →
      checkRule p payload r = none) ∧
    (∀ (r : Rule) (p : PacketInfo) (payload : Option String) (a b : String),
      r.dst_ip = some a → p.dst_ip = some b → b ≠ "" → a ≠ b →
      checkRule p payload r = none) ∧
    (∀ (r : Rule) (p : PacketInfo) (payload : Option String),
      r.compiled_pattern = none → passesFilters r p = true → p.raw_packet = some payload →
      check_rules [r] p = [mkAlert p r]) := by
  refine ⟨?_, ?_, ?_⟩
  · intro r p payload a b hra hpb hb hab
    unfold checkRule
    rw [if_pos (show (r.src_ip.isSome && truthyS p.src_ip
      && decide (r.src_ip ≠ p.src_ip)) = true
      by simp [hra, hpb, truthyS, hb, hab])]
  · intro r p payload a b hra hpb hb hab
    unfold checkRule
    split
    · rfl
    · split
      · rfl
      · rename_i h2
        exact absurd (show (r.dst_ip.isSome && truthyS p.dst_ip
            && decide (r.dst_ip ≠ p.dst_ip)) = true
            by simp [hra, hpb, truthyS, hb, hab]) h2
  · intro r p payload hp hf hraw
    unfold check_rules
    rw [hraw]
    simp [List.filterMap_cons, checkRule_filterOnly r p payload hp hf]

/-- C7 amended, witness: a present-but-different source address skips the
rule; applied at concrete inputs. -/
theorem address_filter_amended_witness :
    c7rule.src_ip = some "10.0.0.1" ∧ c7pkt2.src_ip = some "10.0.0.9" ∧
    checkRule c7pkt2 none c7rule = none :=
  ⟨rfl, rfl,
   address_filter_amended.1 c7rule c7pkt2 none "10.0.0.1" "10.0.0.9" rfl rfl
     (by decide) (by decide)⟩

/-- C8 counterexample: a filter-only rule with no filters at all, evaluated
against a packet event with NO raw-packet view, emits zero alerts —
`_check_rules` returns immediately when `raw_packet` is falsy, refuting
"whether or not the event carries a payload or raw packet view". -/
theorem filter_only_rule_cex :
    c8rule.compiled_pattern = none ∧ passesFilters c8rule c8pkt = true ∧
    check_rules [c8rule] c8pkt = [] :=
  ⟨rfl, rfl, rfl⟩

/-- C8 amended: provided the event carries a raw-packet view, a rule with
no payload pattern whose address/protocol filters pass emits exactly one
`SIGNATURE` alert, whether or not a decoded payload (`Raw` layer) is
present; with no raw-packet view, rule evaluation emits no alerts at
all. -/
theorem filter_only_rule_amended :
    (∀ (r : Rule) (p : PacketInfo) (payload : Option String),
      p.raw_packet = some payload → r.compiled_pattern = none →
      passesFilters r p = true → check_rules [r] p = [mkAlert p r]) ∧
    (∀ (rules : List Rule) (p : PacketInfo),
      p.raw_packet = none → check_rules rules p = []) := by
  constructor
  · intro r p payload hraw hp hf
    unfold check_rules
    rw [hraw]
    simp [List.filterMap_cons, checkRule_filterOnly r p payload hp hf]
  · intro rules p hraw
    unfold check_rules
    rw [hraw]

/-- C8 amended, witness: the filter-free pattern-free rule fires exactly
once on a packet carrying a raw view without a `Raw` payload layer. -/
theorem filter_only_rule_amended_witness :
    c7pkt.raw_packet = some none ∧ c8rule.compiled_pattern = none ∧
    passesFilters c8rule c7pkt = true ∧
    check_rules [c8rule] c7pkt = [mkAlert c7pkt c8rule] :=
  ⟨rfl, rfl, rfl, filter_only_rule_amended.1 c8rule c7pkt none rfl rfl rfl⟩

/-- The rule-appending loop, run on a list whose prefix compiles and is
followed by a rule whose pattern fails to compile, stops at the failure
with only the prefix appended. -/
theorem loadLoop_stops_at_bad (compile : String → Option (String → Bool)) :
    ∀ (good : List RawRule) (bad : RawRule) (rest : List RawRule) (acc : List Rule),
      (∀ d ∈ good, (compileRule compile d).isSome = true) →
      compileRule compile bad = none →
      loadLoop compile (good ++ bad :: rest) acc
        = acc ++ good.filterMap (compileRule compile) := by
  intro good
  induction good with
  | nil =>
      intro bad rest acc _ hbad
      simp [loadLoop, hbad]
  | cons g gs ih =>
      intro bad rest acc hgood hbad
      have hg : (compileRule compile g).isSome = true := hgood g (List.mem_cons_self _ _)
      obtain ⟨cg, hcg⟩ := Option.isSome_iff_exists.mp hg
      simp only [List.cons_append, loadLoop, hcg, List.append_eq]
      rw [ih bad rest (acc ++ [cg]) (fun d hd => hgood d (List.mem_cons_of_mem _ hd)) hbad]
      simp [List.filterMap_cons, hcg]

/-- C9 counterexample: loading `[g1, bad, g2]` where `bad`'s pattern fails
to compile yields a rule set containing only `g1` — the well-formed rule
`g2` after the malformed one is NOT loaded, because the compile error
aborts the whole loop instead of skipping the one rule. -/
theorem rule_load_cex :
    (compileRule c9compile c9g2).isSome = true ∧
    (load_rules c9compile [] (Except.ok [c9g1, c9bad, c9g2])).map (fun r => r.id)
      = [some "g1"] :=
  ⟨rfl, rfl⟩

/-- C9 amended: a rule whose pattern fails to compile aborts the load at
that point — rules before it are kept (already appended), the failing rule
and every rule after it are dropped, and no exception escapes; a wholly
unreadable rule file leaves the previous rule set in place (the empty set
when loading at engine construction), again without raising. -/
theorem rule_load_amended :
    (∀ (compile : String → Option (String → Bool)) (prev : List Rule)
       (good : List RawRule) (bad : RawRule) (rest : List RawRule),
      (∀ d ∈ good, (compileRule compile d).isSome = true) →
      compileRule compile bad = none →
      load_rules compile prev (Except.ok (good ++ bad :: rest))
        = good.filterMap (compileRule compile)) ∧
    (∀ (compile : String → Option (String → Bool)) (prev : List Rule),
      load_rules compile prev (Except.error ()) = prev) := by
  constructor
  · intro compile prev good bad rest hgood hbad
    show loadLoop compile (good ++ bad :: rest) [] = good.filterMap (compileRule compile)
    rw [loadLoop_stops_at_bad compile good bad rest [] hgood hbad]
    rfl
  · intro compile prev
    rfl

/-- C9 amended, witness: applied at the concrete three-rule file. -/
theorem rule_load_amended_witness :
    (∀ d ∈ [c9g1], (compileRule c9compile d).isSome = true) ∧
    compileRule c9compile c9bad = none ∧
    load_rules c9compile [] (Except.ok ([c9g1] ++ c9bad :: [c9g2]))
      = [c9g1].filterMap (compileRule c9compile) :=
  ⟨by intro d hd; simp only [List.mem_singleton] at hd; subst hd; rfl,
   rfl,
   rule_load_amended.1 c9compile [] [c9g1] c9bad [c9g2]
     (by intro d hd; simp only [List.mem_singleton] at hd; subst hd; rfl) rfl⟩

/-- A successful dict lookup returns an entry of the table. -/
theorem lookupFlow_mem : ∀ (tbl : List (String × FlowStat)) (k : String) (v : FlowStat),
    lookupFlow tbl k = some v → (k, v) ∈ tbl := by
  intro tbl
  induction tbl with
  | nil => intro k v h; simp [lookupFlow] at h
  | cons hd rest ih =>
      intro k v h
      obtain ⟨k0, v0⟩ := hd
      by_cases he : k0 = k
      · subst he
        simp [lookupFlow] at h
        subst h
        exact List.mem_cons_self _ _
      · simp only [lookupFlow, if_neg he] at h
        exact List.mem_cons_of_mem _ (ih k v h)

/-- Every entry of the table after a dict insert-or-update is either the
written pair or an entry of the original table. -/
theorem setFlow_mem : ∀ (tbl : List (String × FlowStat)) (k : String) (v : FlowStat)
    (k2 : String) (v2 : FlowStat),
    (k2, v2) ∈ setFlow tbl k v → (k2, v2) = (k, v) ∨ (k2, v2) ∈ tbl := by
  intro tbl
  induction tbl with
  | nil =>
      intro k v k2 v2 h
      simp only [setFlow, List.mem_singleton] at h
      exact Or.inl h
  | cons hd rest ih =>
      intro k v k2 v2 h
      obtain ⟨k0, v0⟩ := hd
      by_cases he : k0 = k
      · simp only [setFlow, if_pos he, List.mem_cons] at h
        rcases h with h | h
        · exact Or.inl h
        · exact Or.inr (List.mem_cons_of_mem _ h)
      · simp only [setFlow, if_neg he, List.mem_cons] at h
        rcases h with h | h
        · exact Or.inr (h ▸ List.mem_cons_self _ _)
        · rcases ih k v k2 v2 h with h2 | h2
          · exact Or.inl h2
          · exact Or.inr (List.mem_cons_of_mem _ h2)

/-- The per-flow update preserves the consistency invariant, starting
either from the dict's fresh default or from any consistent state. -/
theorem updateFlow_inv (st : FlowStat) (t : Int) (len : Nat)
    (h : st = emptyFlow ∨ FlowInv st) : FlowInv (updateFlow st t len) := by
  rcases h with h | h
  · subst h
    refine ⟨rfl, rfl, le_refl 1, rfl, ?_, rfl⟩
    show (0 : Nat) + len = List.sum ([] ++ [len])
    simp
  · obtain ⟨h1, h2, h3, h4, h5, h6⟩ := h
    obtain ⟨s0, hs0⟩ := Option.isSome_iff_exists.mp h1
    unfold updateFlow
    rw [hs0]
    refine ⟨rfl, rfl, ?_, ?_, ?_, ?_⟩
    · exact Nat.le_succ_of_le h3
    · show st.packet_count + 1 = (st.packet_sizes ++ [len]).length
      rw [List.length_append, h4]
      rfl
    · show st.byte_count + len = (st.packet_sizes ++ [len]).sum
      rw [List.sum_append, h5]
      simp
    · show (st.intervals ++ [t - st.last_time.getD 0]).length + 1 = st.packet_count + 1
      rw [List.length_append, List.length_singleton]
      omega

/-- Packet ingestion preserves the table invariant. -/
theorem updateFlowStats_inv (tbl : List (String × FlowStat)) (p : PacketInfo)
    (h : TableInv tbl) : TableInv (updateFlowStats tbl p) := by
  unfold updateFlowStats
  by_cases hc : (truthyS p.src_ip && truthyS p.dst_ip) = true
  · rw [if_pos hc]
    intro k st hmem
    rcases setFlow_mem _ _ _ _ _ hmem with heq | hmem2
    · have hst : st = updateFlow
          ((lookupFlow tbl (flow_key (p.src_ip.getD "") (p.dst_ip.getD "")
            (if truthyN p.protocol then p.protocol.getD 0 else 0))).getD emptyFlow)
          p.timestamp p.length := congrArg Prod.snd heq
      rw [hst]
      apply updateFlow_inv
      rcases hlk : lookupFlow tbl (flow_key (p.src_ip.getD "") (p.dst_ip.getD "")
          (if truthyN p.protocol then p.protocol.getD 0 else 0)) with _ | v
      · exact Or.inl rfl
      · exact Or.inr (h _ v (lookupFlow_mem tbl _ v hlk))
    · exact h k st hmem2
  · rw [if_neg hc]
    exact h

/-- Entries surviving a drain pass were entries of the original table. -/
theorem generateFeatures_snd_subset (now window : Int) :
    ∀ (tbl : List (String × FlowStat)) (k : String) (st : FlowStat),
      (k, st) ∈ (generateFeatures now window tbl).2 → (k, st) ∈ tbl := by
  intro tbl
  induction tbl with
  | nil => intro k st h; simp [generateFeatures] at h
  | cons hd rest ih =>
      intro k st hmem
      obtain ⟨k0, st0⟩ := hd
      by_cases h1 : st0.last_time = none
      · simp only [generateFeatures, if_pos h1, List.mem_cons] at hmem
        rcases hmem with h | h
        · exact h ▸ List.mem_cons_self _ _
        · exact List.mem_cons_of_mem _ (ih k st h)
      · by_cases h2 : st0.packet_count < 5
        · simp only [generateFeatures, if_neg h1, if_pos h2, List.mem_cons] at hmem
          rcases hmem with h | h
          · exact h ▸ List.mem_cons_self _ _
          · exact List.mem_cons_of_mem _ (ih k st h)
        · by_cases h3 : now - st0.last_time.getD 0 > window
          · rcases hef : extractFlowFeatures k0 st0 with _ | f0 <;>
              simp only [generateFeatures, if_neg h1, if_neg h2, if_pos h3, hef] at hmem <;>
              exact List.mem_cons_of_mem _ (ih k st hmem)
          · simp only [generateFeatures, if_neg h1, if_neg h2, if_neg h3,
              List.mem_cons] at hmem
            rcases hmem with h | h
            · exact h ▸ List.mem_cons_self _ _
            · exact List.mem_cons_of_mem _ (ih k st h)

/-- C10: flow-state consistency — after any sequence of packet ingestions
and drain passes from the empty table, every flow state held in the table
has `packet_count` equal to the length of the size sequence, `byte_count`
equal to its sum, and exactly `packet_count − 1` inter-arrival entries. -/
theorem flow_state_consistency :
    ∀ (ops : List FlowOp) (k : String) (st : FlowStat),
      (k, st) ∈ runOps ops →
      st.packet_count = st.packet_sizes.length ∧
      st.byte_count = st.packet_sizes.sum ∧
      st.intervals.length = st.packet_count - 1 := by
  have main : ∀ (ops : List FlowOp) (tbl : List (String × FlowStat)),
      TableInv tbl → TableInv (List.foldl applyOp tbl ops) := by
    intro ops
    induction ops with
    | nil => intro tbl h; simpa using h
    | cons op rest ih =>
        intro tbl h
        rw [List.foldl_cons]
        refine ih _ ?_
        cases op with
        | ingest p => exact updateFlowStats_inv tbl p h
        | drain now window =>
            intro k st hmem
            exact h k st (generateFeatures_snd_subset now window tbl k st hmem)
  intro ops k st hmem
  have hinv : FlowInv st := main ops [] (by intro k2 st2 h2; simp at h2) k st hmem
  obtain ⟨_, _, h3, h4, h5, h6⟩ := hinv
  exact ⟨h4, h5, by omega⟩

/-- C10 witness: after ingesting one packet, the single table entry
satisfies the consistency invariant. -/
theorem flow_state_consistency_witness :
    (("10.0.0.1_10.0.0.2_6",
       ({ packet_count := 1, byte_count := 100, start_time := some 0, last_time := some 0,
          intervals := [], packet_sizes := [100] } : FlowStat))
      ∈ runOps [FlowOp.ingest (c4pkt 0 100)]) ∧
    ((1 : Nat) = [(100 : Nat)].length ∧ (100 : Nat) = [(100 : Nat)].sum ∧
      ([] : List Int).length = 1 - 1) :=
  ⟨by decide,
   flow_state_consistency [FlowOp.ingest (c4pkt 0 100)] "10.0.0.1_10.0.0.2_6"
     { packet_count := 1, byte_count := 100, start_time := some 0, last_time := some 0,
       intervals := [], packet_sizes := [100] } (by decide)⟩

end IDS
